import Mathlib

set_option maxRecDepth 100000

/-!
Verification development for the ReACT agent loop of the langgraph repository.

The definitions below are a shallow embedding of the TypeScript sources
src/core/react-agent.ts (response parsing and action execution) and
src/server/web-server.ts (the executeResponse loop, session history cap).
JavaScript strings are modelled as Lean strings (lists of characters), the
regular expressions used by the parser are modelled by explicit scanning
functions whose behaviour matches the JS regex engine on the patterns in
question, and JSON.parse is modelled by a strict RFC 8259 recursive-descent
routine. Promises are modelled by a behaviour oracle: a tool call either
resolves with a string, rejects with a message, or does not settle within
the 30 second race window.
-/

namespace ReACTSpec

/-! JavaScript string primitives -/

/-- Whitespace class of the JS regex escape backslash-s and of String.trim:
space, tab, line feed, carriage return, vertical tab, form feed, and the
Unicode space characters. -/
def isJsWs (c : Char) : Bool :=
  c = ' ' || c = '\t' || c = '\n' || c = '\r' || c.toNat = 11 || c.toNat = 12 ||
  c.toNat = 0xa0 || c.toNat = 0x1680 || (0x2000 ≤ c.toNat && c.toNat ≤ 0x200a) ||
  c.toNat = 0x2028 || c.toNat = 0x2029 || c.toNat = 0x202f || c.toNat = 0x205f ||
  c.toNat = 0x3000 || c.toNat = 0xfeff

/-- Word-character class of the JS regex escape backslash-w: ASCII letters,
digits and underscore. -/
def isWordChar (c : Char) : Bool :=
  ('a' ≤ c && c ≤ 'z') || ('A' ≤ c && c ≤ 'Z') || ('0' ≤ c && c ≤ '9') || c = '_'

/-- Model of JS String.prototype.trim. -/
def jsTrim (l : List Char) : List Char :=
  ((l.dropWhile isJsWs).reverse.dropWhile isJsWs).reverse

/-- Case-sensitive test that the pattern is a prefix of the text. -/
def startsWithExact : List Char → List Char → Bool
  | [], _ => true
  | _ :: _, [] => false
  | p :: ps, c :: cs => (c = p) && startsWithExact ps cs

/-- Case-insensitive test that the pattern is a prefix of the text, matching
the JS regex flag i on ASCII patterns. -/
def startsWithCI : List Char → List Char → Bool
  | [], _ => true
  | _ :: _, [] => false
  | p :: ps, c :: cs => (c.toLower = p.toLower) && startsWithCI ps cs

/-- Everything after the first case-insensitive occurrence of the pattern,
or none when the pattern does not occur.  This models how the JS regex engine
locates a fixed literal while scanning left to right. -/
def tailAfterCI (pat : List Char) : List Char → Option (List Char)
  | [] => if pat.isEmpty then some [] else none
  | c :: cs =>
    if startsWithCI pat (c :: cs) then some ((c :: cs).drop pat.length)
    else tailAfterCI pat cs

/-- Case-sensitive substring test, scanning every suffix. -/
def containsSub (pat : List Char) : List Char → Bool
  | [] => pat.isEmpty
  | c :: cs => startsWithExact pat (c :: cs) || containsSub pat cs

/-- Substring test on strings. -/
def strContains (s pat : String) : Bool := containsSub pat.data s.data

/-- Case-insensitive marker containment on strings. -/
def strContainsCI (s pat : String) : Bool := (tailAfterCI pat.data s.data).isSome

/-- Index of the first occurrence of a character, as used by
String.prototype.indexOf in the parser. -/
def idxOfChar (c : Char) : List Char → Option Nat
  | [] => none
  | d :: ds => if d = c then some 0 else (idxOfChar c ds).map (· + 1)

/-! Models of the four regular expressions of parseReACTResponse -/

/-- Capture group of the JS match against the Final Answer regex (flags i and
s): the literal "Final Answer:", then greedy whitespace, then a nonempty
greedy capture of the rest.  The match succeeds at the first occurrence of the
marker exactly when at least one character follows it; when the remaining text
is pure whitespace the engine backtracks so that the capture keeps exactly the
last character. -/
def reFinalAnswerGroup (l : List Char) : Option (List Char) :=
  match tailAfterCI "Final Answer:".data l with
  | none => none
  | some tail =>
    if tail.isEmpty then none
    else
      let afterWs := tail.dropWhile isJsWs
      if afterWs.isEmpty then some (tail.drop (tail.length - 1)) else some afterWs

/-- Capture group of the JS match against the Thought regex (flags i and s):
the literal "Thought:", greedy whitespace, then a lazy nonempty capture ending
right before the next line feed or at the end of the text. -/
def reThoughtGroup (l : List Char) : Option (List Char) :=
  match tailAfterCI "Thought:".data l with
  | none => none
  | some tail =>
    if tail.isEmpty then none
    else
      let afterWs := tail.dropWhile isJsWs
      if afterWs.isEmpty then some (tail.drop (tail.length - 1))
      else some (afterWs.takeWhile (fun c => c ≠ '\n'))

/-- Capture group of the JS match against the Action regex (flag i): the
literal "Action:", greedy whitespace, then a nonempty run of word characters.
When a candidate position fails to produce a word character the engine resumes
scanning at the next position. -/
def reActionName : List Char → Option (List Char)
  | [] => none
  | c :: cs =>
    if startsWithCI "Action:".data (c :: cs) then
      let word := (((c :: cs).drop 7).dropWhile isJsWs).takeWhile isWordChar
      if word.isEmpty then reActionName cs else some word
    else reActionName cs

/-- Capture group of the JS match against the Action Input regex (flag i):
the literal "Action Input:", greedy whitespace, an opening brace, a lazy run,
and the first closing brace after it.  The opening brace must be the first
non-whitespace character after the marker; when no closing brace follows, the
engine resumes scanning for a later occurrence of the marker. -/
def reActionInputGroup : List Char → Option (List Char)
  | [] => none
  | c :: cs =>
    if startsWithCI "Action Input:".data (c :: cs) then
      match ((c :: cs).drop 13).dropWhile isJsWs with
      | '{' :: rest =>
        let body := rest.takeWhile (fun d => d ≠ '}')
        if body.length = rest.length then reActionInputGroup cs
        else some ('{' :: (body ++ ['}']))
      | _ => reActionInputGroup cs
    else reActionInputGroup cs

/-- Capture group of the JS match against the query-rescue regex (no flags,
case-sensitive): a literal quoted query key with colon, greedy whitespace, a
quote, a nonempty run of non-quote characters, and a closing quote. -/
def reQueryValue : List Char → Option (List Char)
  | [] => none
  | c :: cs =>
    if startsWithExact "\"query\":".data (c :: cs) then
      match ((c :: cs).drop 8).dropWhile isJsWs with
      | '"' :: rest =>
        let v := rest.takeWhile (fun d => d ≠ '"')
        if v.isEmpty || v.length = rest.length then reQueryValue cs else some v
      | _ => reQueryValue cs
    else reQueryValue cs

/-! JSON values and the model of JSON.parse -/

mutual
/-- JSON values.  Numbers keep their source lexeme, which is faithful for
every comparison made by the embedded code. -/
inductive Json where
  | jnull
  | jbool (b : Bool)
  | jnum (lexeme : String)
  | jstr (s : String)
  | jarr (elems : JsonList)
  | jobj (fields : JsonFields)
deriving DecidableEq
/-- Lists of JSON values. -/
inductive JsonList where
  | nil
  | cons (head : Json) (tail : JsonList)
deriving DecidableEq
/-- Ordered key-value members of a JSON object. -/
inductive JsonFields where
  | fnil
  | fcons (key : String) (value : Json) (tail : JsonFields)
deriving DecidableEq
end

/-- Field lookup in a JSON object, as JS property access on a parsed value. -/
def JsonFields.lookup : JsonFields → String → Option Json
  | .fnil, _ => none
  | .fcons k v tl, key => if k = key then some v else tl.lookup key

/-- Remove a key from the member list. -/
def JsonFields.eraseKey : JsonFields → String → JsonFields
  | .fnil, _ => .fnil
  | .fcons k v tl, key => if k = key then tl.eraseKey key else .fcons k v (tl.eraseKey key)

/-- Prepend one member to already-collapsed later members with the JS
duplicate-key rule: the first occurrence keeps its position, the last
occurrence keeps its value. -/
def JsonFields.addMember (key : String) (v : Json) (later : JsonFields) : JsonFields :=
  match later.lookup key with
  | some v2 => .fcons key v2 (later.eraseKey key)
  | none => .fcons key v later

/-- Whitespace accepted by JSON.parse: space, tab, line feed, carriage return. -/
def isJsonWs (c : Char) : Bool := c = ' ' || c = '\t' || c = '\n' || c = '\r'

/-- Skip JSON whitespace. -/
def skipJsonWs (l : List Char) : List Char := l.dropWhile isJsonWs

/-- ASCII decimal digit test. -/
def isDigitCh (c : Char) : Bool := '0' ≤ c && c ≤ '9'

/-- ASCII hexadecimal digit test. -/
def isHexCh (c : Char) : Bool :=
  isDigitCh c || ('a' ≤ c && c ≤ 'f') || ('A' ≤ c && c ≤ 'F')

/-- Value of a hexadecimal digit. -/
def hexVal (c : Char) : Nat :=
  if isDigitCh c then c.toNat - '0'.toNat
  else if 'a' ≤ c && c ≤ 'f' then c.toNat - 'a'.toNat + 10
  else c.toNat - 'A'.toNat + 10

/-- Simple escape characters of JSON strings. -/
def jsonSimpleEsc (c : Char) : Option Char :=
  if c = '"' then some '"'
  else if c = '\\' then some '\\'
  else if c = '/' then some '/'
  else if c = 'b' then some (Char.ofNat 8)
  else if c = 'f' then some (Char.ofNat 12)
  else if c = 'n' then some '\n'
  else if c = 'r' then some '\r'
  else if c = 't' then some '\t'
  else none

/-- Body of a JSON string after the opening quote: returns the decoded content
and the remaining input after the closing quote.  Unescaped control characters
are rejected, escapes follow RFC 8259.  (Lone UTF-16 surrogates, which JS
tolerates, have no Char counterpart and decode to the null character; no claim
depends on them.) -/
def parseJsonStringBody : List Char → Option (List Char × List Char)
  | [] => none
  | '"' :: rest => some ([], rest)
  | '\\' :: 'u' :: h1 :: h2 :: h3 :: h4 :: rest =>
    if isHexCh h1 && isHexCh h2 && isHexCh h3 && isHexCh h4 then
      (parseJsonStringBody rest).map fun (s, r) =>
        (Char.ofNat (((hexVal h1 * 16 + hexVal h2) * 16 + hexVal h3) * 16 + hexVal h4) :: s, r)
    else none
  | '\\' :: e :: rest =>
    match jsonSimpleEsc e with
    | some ch => (parseJsonStringBody rest).map fun (s, r) => (ch :: s, r)
    | none => none
  | c :: rest =>
    if c.toNat < 32 then none
    else (parseJsonStringBody rest).map fun (s, r) => (c :: s, r)

/-- Fractional part of a JSON number: a dot followed by at least one digit,
or nothing. -/
def parseJsonFrac (l : List Char) : Option (List Char × List Char) :=
  match l with
  | '.' :: r =>
    let ds := r.takeWhile isDigitCh
    if ds.isEmpty then none else some ('.' :: ds, r.drop ds.length)
  | _ => some ([], l)

/-- Exponent part of a JSON number, or nothing. -/
def parseJsonExp (l : List Char) : Option (List Char × List Char) :=
  match l with
  | e :: r =>
    if e = 'e' || e = 'E' then
      let (sgn, r2) := match r with
        | '+' :: r2 => (['+'], r2)
        | '-' :: r2 => (['-'], r2)
        | _ => (([] : List Char), r)
      let ds := r2.takeWhile isDigitCh
      if ds.isEmpty then none else some (e :: sgn ++ ds, r2.drop ds.length)
    else some ([], l)
  | [] => some ([], l)

/-- A JSON number lexeme: optional minus, an integer part with no leading
zeros, optional fraction and exponent. -/
def parseJsonNumber (l : List Char) : Option (List Char × List Char) :=
  let (sgn, l1) := match l with
    | '-' :: r => ((['-'] : List Char), r)
    | _ => (([] : List Char), l)
  match l1 with
  | [] => none
  | c :: r =>
    let intPart : Option (List Char × List Char) :=
      if c = '0' then some (['0'], r)
      else if isDigitCh c then
        some (c :: r.takeWhile isDigitCh, r.drop (r.takeWhile isDigitCh).length)
      else none
    match intPart with
    | none => none
    | some (ip, r1) =>
      match parseJsonFrac r1 with
      | none => none
      | some (fp, r2) =>
        match parseJsonExp r2 with
        | none => none
        | some (ep, r3) => some (sgn ++ ip ++ fp ++ ep, r3)

/-- Drop an exact expected literal, otherwise fail. -/
def dropExact (pat : List Char) (l : List Char) : Option (List Char) :=
  if startsWithExact pat l then some (l.drop pat.length) else none

mutual
/-- One JSON value with surrounding leading whitespace skipped.  The fuel
argument strictly dominates the nesting of recursive calls; the entry point
supplies more fuel than the input has characters, so fuel never runs out on
any actual input. -/
def parseJsonValue : Nat → List Char → Option (Json × List Char)
  | 0, _ => none
  | fuel + 1, l =>
    match skipJsonWs l with
    | [] => none
    | c :: rest =>
      if c = '{' then
        (parseJsonObjBody fuel rest).map fun (fs, r) => (Json.jobj fs, r)
      else if c = '[' then
        (parseJsonArrBody fuel rest).map fun (xs, r) => (Json.jarr xs, r)
      else if c = '"' then
        (parseJsonStringBody rest).map fun (s, r) => (Json.jstr s.asString, r)
      else if c = 't' then
        (dropExact "rue".data rest).map fun r => (Json.jbool true, r)
      else if c = 'f' then
        (dropExact "alse".data rest).map fun r => (Json.jbool false, r)
      else if c = 'n' then
        (dropExact "ull".data rest).map fun r => (Json.jnull, r)
      else
        (parseJsonNumber (c :: rest)).map fun (lx, r) => (Json.jnum lx.asString, r)

/-- Object members after the opening brace: either an immediate closing brace
or a nonempty member list. -/
def parseJsonObjBody : Nat → List Char → Option (JsonFields × List Char)
  | 0, _ => none
  | fuel + 1, l =>
    match skipJsonWs l with
    | '}' :: rest => some (.fnil, rest)
    | _ => parseJsonObjRest fuel l

/-- A nonempty run of object members separated by commas and closed by a
brace. -/
def parseJsonObjRest : Nat → List Char → Option (JsonFields × List Char)
  | 0, _ => none
  | fuel + 1, l =>
    match skipJsonWs l with
    | '"' :: rest =>
      match parseJsonStringBody rest with
      | none => none
      | some (key, r1) =>
        match skipJsonWs r1 with
        | ':' :: r2 =>
          match parseJsonValue fuel r2 with
          | none => none
          | some (v, r3) =>
            match skipJsonWs r3 with
            | ',' :: r4 =>
              (parseJsonObjRest fuel r4).map fun (fs, r) =>
                (JsonFields.addMember key.asString v fs, r)
            | '}' :: r4 => some (.fcons key.asString v .fnil, r4)
            | _ => none
        | _ => none
    | _ => none

/-- Array elements after the opening bracket: either an immediate closing
bracket or a nonempty element list. -/
def parseJsonArrBody : Nat → List Char → Option (JsonList × List Char)
  | 0, _ => none
  | fuel + 1, l =>
    match skipJsonWs l with
    | ']' :: rest => some (.nil, rest)
    | _ => parseJsonArrRest fuel l

/-- A nonempty run of array elements separated by commas and closed by a
bracket. -/
def parseJsonArrRest : Nat → List Char → Option (JsonList × List Char)
  | 0, _ => none
  | fuel + 1, l =>
    match parseJsonValue fuel l with
    | none => none
    | some (v, r1) =>
      match skipJsonWs r1 with
      | ',' :: r2 => (parseJsonArrRest fuel r2).map fun (xs, r) => (.cons v xs, r)
      | ']' :: r2 => some (.cons v .nil, r2)
      | _ => none
end

/-- Model of strict JSON.parse: one value, with only whitespace around it. -/
def jsonParse (s : String) : Option Json :=
  match parseJsonValue (3 * s.data.length + 8) s.data with
  | some (v, rest) => if (skipJsonWs rest).isEmpty then some v else none
  | none => none

/-! The response parser of src/core/react-agent.ts -/

/-- ReACTAction of react-agent.ts. -/
structure ReACTAction where
  thought : String
  action : String
  actionInput : Json
deriving DecidableEq

/-- ReACTResult of react-agent.ts.  The finalAnswer and action fields model
the optional fields of the TS interface. -/
structure ReACTResult where
  isDone : Bool
  finalAnswer : Option String := none
  action : Option ReACTAction := none
deriving DecidableEq

/-- The empty JSON object, the default action input. -/
def emptyObj : Json := Json.jobj .fnil

/-- parseReACTResponse of react-agent.ts: final-answer detection first, then
action extraction, then lenient action-input extraction with a strict JSON
parse, a narrow query rescue, and an empty-object fallback. -/
def parseReACTResponse (response : String) : ReACTResult :=
  match reFinalAnswerGroup response.data with
  | some g => { isDone := true, finalAnswer := some (jsTrim g).asString }
  | none =>
    match reActionName response.data with
    | none => { isDone := false }
    | some w =>
      let thought := match reThoughtGroup response.data with
        | some g => (jsTrim g).asString
        | none => ""
      let actionName := (jsTrim w).asString
      let actionInput : Json :=
        match reActionInputGroup response.data with
        | none => emptyObj
        | some g =>
          let jsonStr := jsTrim g
          let cleanJson := match idxOfChar '}' jsonStr with
            | some i => jsonStr.take (i + 1)
            | none => []
          match jsonParse cleanJson.asString with
          | some j => j
          | none =>
            match reQueryValue g with
            | some v => Json.jobj (.fcons "query" (.jstr v.asString) .fnil)
            | none => emptyObj
      { isDone := false, action := some ⟨thought, actionName, actionInput⟩ }

/-! The action executor of src/core/react-agent.ts -/

/-- Names of the registered tools, in the registration order of allTools in
src/core/tools.ts. -/
def allToolNames : List String :=
  ["calculator", "web_search", "browser_navigate", "browser_extract",
   "execute_code", "read_file", "write_file", "take_note", "get_note",
   "list_notes", "get_datetime"]

/-- Join with a comma separator, as Array.prototype.join. -/
def joinComma : List String → String
  | [] => ""
  | [x] => x
  | x :: xs => x ++ ", " ++ joinComma xs

/-- Behaviour of one tool invocation: the promise resolves with a string,
rejects with an error message, or does not settle inside the 30 second
race window. -/
inductive ToolBehavior where
  | resolves (result : String)
  | throws (msg : String)
  | hangs
deriving DecidableEq

/-- Outcome of the executeReACTAction promise: either it resolves with an
observation string, or it never settles (only possible when the underlying
tool hangs, because every error path resolves with an error string). -/
inductive ExecOutcome where
  | resolved (s : String)
  | pending
deriving DecidableEq

/-- executeReACTAction of react-agent.ts: unknown tools resolve with an error
string listing the registry, tool exceptions are caught and rendered as an
error string, successes pass the tool result through verbatim.  The function
has no exception channel at all: it always either resolves or stays pending
with the hung tool. -/
def executeReACTAction (beh : String → Json → ToolBehavior) (a : ReACTAction) : ExecOutcome :=
  if a.action ∈ allToolNames then
    match beh a.action a.actionInput with
    | .resolves r => .resolved r
    | .throws m => .resolved ("Error executing " ++ a.action ++ ": " ++ m)
    | .hangs => .pending
  else
    .resolved ("Error: Unknown tool \"" ++ a.action ++ "\". Available tools: " ++
      joinComma allToolNames)

/-! The executeResponse loop of src/server/web-server.ts -/

/-- Message roles of the langchain BaseMessage variants used by the server. -/
inductive Role where
  | system
  | human
  | ai
deriving DecidableEq

/-- One conversation turn of the session history. -/
structure Msg where
  role : Role
  content : String
deriving DecidableEq

/-- The events executeResponse sends over the websocket, as discriminated
records. -/
inductive Event where
  | agentStep (step content : String)
  | toolCall (toolName : String) (toolArgs : Json) (toolId : String)
  | toolResult (toolName result toolId : String)
  | toolError (toolName error toolId : String)
  | streamStart
  | streamChunk (content : String)
  | streamEnd
  | errorEvent (content : String)
deriving DecidableEq

/-- Template-literal interpolation of a JS value, used by the progress
messages.  A missing property renders as undefined; number lexemes are kept
verbatim, a harmless approximation of float re-rendering that no claim
touches. -/
def jsInterp : Option Json → String
  | none => "undefined"
  | some .jnull => "null"
  | some (.jbool b) => if b then "true" else "false"
  | some (.jnum lx) => lx
  | some (.jstr s) => s
  | some (.jarr _) => "[array]"
  | some (.jobj _) => "[object Object]"

/-- Property access on a parsed action input. -/
def argField (args : Json) (key : String) : Option Json :=
  match args with
  | .jobj fs => fs.lookup key
  | _ => none

/-- getToolProgressMessage of web-server.ts. -/
def getToolProgressMessage (toolName : String) (args : Json) : String :=
  if toolName = "web_search" then
    "Searching the web for: \"" ++ jsInterp (argField args "query") ++ "\"..."
  else if toolName = "browser_navigate" then
    "Navigating to " ++ jsInterp (argField args "url") ++ "..."
  else if toolName = "browser_extract" then
    "Extracting content from " ++ jsInterp (argField args "url") ++ "..."
  else if toolName = "calculator" then
    "Calculating: " ++ jsInterp (argField args "expression") ++ "..."
  else if toolName = "get_datetime" then
    "Getting current date and time..."
  else if toolName = "take_note" then
    "Saving note: \"" ++ jsInterp (argField args "key") ++ "\"..."
  else if toolName = "get_note" then
    "Retrieving note: \"" ++ jsInterp (argField args "key") ++ "\"..."
  else if toolName = "list_notes" then
    "Listing all saved notes..."
  else if toolName = "execute_code" then
    "Executing JavaScript code..."
  else if toolName = "read_file" then
    "Reading file: \"" ++ jsInterp (argField args "filePath") ++ "\"..."
  else if toolName = "write_file" then
    "Writing to file: \"" ++ jsInterp (argField args "filePath") ++ "\"..."
  else
    "Executing " ++ toolName ++ "..."

/-- The payload of a tool-result event: the observation capped at 2000
characters, with an ellipsis marker appended exactly when it was longer. -/
def truncateForClient (observation : String) : String :=
  (observation.data.take 2000).asString ++
    (if 2000 < observation.data.length then "..." else "")

/-- Model of the JS split on a single space character: empty input yields one
empty word, consecutive separators yield empty words. -/
def splitWords : List Char → List (List Char)
  | [] => [[]]
  | c :: cs =>
    if c = ' ' then [] :: splitWords cs
    else
      match splitWords cs with
      | [] => [[c]]
      | w :: ws => (c :: w) :: ws

/-- Join a word list with single spaces, as Array.prototype.join. -/
def joinSpace : List (List Char) → List Char
  | [] => []
  | [w] => w
  | w :: ws => w ++ ' ' :: joinSpace ws

/-- Structural worker for the chunking loop; the fuel starts at the word
count, and every pass consumes at least one word, so it never runs out. -/
def chunkTextsAux : Nat → List (List Char) → List String
  | _, [] => []
  | 0, _ :: _ => []
  | fuel + 1, w :: ws =>
    (joinSpace ((w :: ws).take 10) ++ [' ']).asString :: chunkTextsAux fuel (ws.drop 9)

/-- The chunk texts of the streaming loops of executeResponse: ten words per
chunk, joined with spaces, each chunk with one trailing space appended. -/
def chunkTexts (l : List (List Char)) : List String := chunkTextsAux l.length l

/-- The stream-chunk events produced for one streamed text. -/
def streamChunkEvents (text : String) : List Event :=
  (chunkTexts (splitWords text.data)).map Event.streamChunk

/-- The maximum iteration count of the ReACT loop. -/
def MAX_ITERATIONS : Nat := 10

/-- How one pass of the loop ended overall. -/
inductive LoopExit where
  | finalAnswer
  | unrecognized
  | exhausted
deriving DecidableEq

/-- Trace of one executeResponse loop: the events sent, the history after the
run, the number of model invocations, the final value of the iteration
counter, and how the loop ended. -/
structure LoopResult where
  events : List Event
  history : List Msg
  invocations : Nat
  finalIter : Nat
  exit : LoopExit
deriving DecidableEq

/-- JS truthiness of the optional finalAnswer string: defined and nonempty. -/
def jsTruthy : Option String → Bool
  | none => false
  | some s => !(s = "")

/-- The while loop of executeResponse.  The fuel argument is the remaining
number of allowed passes (MAX_ITERATIONS minus the iteration counter), so the
recursion mirrors the loop condition; iter is the current value of the
iteration counter and is incremented at the top of each pass.  The model
oracle maps the zero-based invocation index to the text the model returns;
beh gives each tool call its behaviour inside the 30 second race. -/
def runLoop (beh : String → Json → ToolBehavior) (oracle : Nat → String) :
    Nat → Nat → List Msg → LoopResult
  | 0, iter, h => ⟨[], h, 0, iter, .exhausted⟩
  | fuel + 1, iter, h =>
    let iter1 := iter + 1
    let responseText := oracle iter
    let parsed := parseReACTResponse responseText
    if parsed.isDone && jsTruthy parsed.finalAnswer then
      let fa := match parsed.finalAnswer with
        | some s => s
        | none => ""
      ⟨Event.streamStart :: streamChunkEvents fa ++ [Event.streamEnd],
       h ++ [⟨Role.ai, responseText⟩], 1, iter1, .finalAnswer⟩
    else
      match parsed.action with
      | some a =>
        let toolId := "react-" ++ toString iter1
        let pre := [Event.toolCall a.action a.actionInput toolId,
                    Event.agentStep "executing" (getToolProgressMessage a.action a.actionInput)]
        match executeReACTAction beh a with
        | .resolved observation =>
          let h2 := h ++ [⟨Role.ai, responseText ++ "\n\nObservation: " ++ observation ++ "\n\n"⟩]
          let r := runLoop beh oracle fuel iter1 h2
          ⟨pre ++ [Event.toolResult a.action (truncateForClient observation) toolId,
                   Event.agentStep "thinking" "Processing results..."] ++ r.events,
           r.history, r.invocations + 1, r.finalIter, r.exit⟩
        | .pending =>
          let errorObs := "Error: " ++ ("Tool " ++ a.action ++ " timed out after 30 seconds")
          let h2 := h ++ [⟨Role.ai, responseText ++ "\n\nObservation: " ++ errorObs ++ "\n\n"⟩]
          let r := runLoop beh oracle fuel iter1 h2
          ⟨pre ++ [Event.toolError a.action errorObs toolId] ++ r.events,
           r.history, r.invocations + 1, r.finalIter, r.exit⟩
      | none =>
        ⟨Event.streamStart :: streamChunkEvents responseText ++ [Event.streamEnd],
         h ++ [⟨Role.ai, responseText⟩], 1, iter1, .unrecognized⟩

/-- executeResponse of web-server.ts: prepend the system prompt to a fresh
conversation, send the initial thinking step, run the ReACT loop, and send the
iteration-limit error whenever the final iteration counter reached the
ceiling.  The system prompt text depends on the process environment (current
date, registry), so it is passed in as a parameter. -/
def executeResponse (beh : String → Json → ToolBehavior) (oracle : Nat → String)
    (reactPrompt : String) (history : List Msg) : LoopResult :=
  let h0 := if history.length = 1 then ⟨Role.system, reactPrompt⟩ :: history else history
  let r := runLoop beh oracle MAX_ITERATIONS 0 h0
  { events :=
      Event.agentStep "thinking" "Analyzing request..." :: r.events ++
        (if MAX_ITERATIONS ≤ r.finalIter then
          [Event.errorEvent "Maximum iteration limit reached. Please try rephrasing your question."]
        else []),
    history := r.history,
    invocations := r.invocations,
    finalIter := r.finalIter,
    exit := r.exit }

/-! The session history cap of web-server.ts -/

/-- The cap on retained history entries per session. -/
def MAX_HISTORY_LENGTH : Nat := 50

/-- The splice-based cap enforcement: when the history exceeds the cap, the
oldest entries are removed from the front until exactly the cap remains. -/
def capHistory (h : List Msg) : List Msg :=
  if MAX_HISTORY_LENGTH < h.length then h.drop (h.length - MAX_HISTORY_LENGTH) else h

/-- The chat handler appends the incoming user turn and then enforces the
cap. -/
def pushUserMessage (h : List Msg) (content : String) : List Msg :=
  capHistory (h ++ [⟨Role.human, content⟩])

/-! The argument-extraction algorithm in the words of claim C4

Claim C4 describes the substring as running from the first opening brace
after the "Action Input:" marker; the code instead requires the opening brace
to be the first non-whitespace character after the marker.  This definition
follows the words of the claim so that the two can be compared. -/

/-- Argument extraction as claim C4 words it: everything from the first
opening brace after the marker up to and including the first closing brace,
strict-JSON-parsed, with the query-pair rescue and the empty-object
fallback. -/
def claimedArgExtraction (response : String) : Json :=
  match tailAfterCI "Action Input:".data response.data with
  | none => emptyObj
  | some tail =>
    match tail.dropWhile (fun c => c ≠ '{') with
    | '{' :: rest =>
      let body := rest.takeWhile (fun c => c ≠ '}')
      if body.length = rest.length then emptyObj
      else
        let sub := '{' :: (body ++ ['}'])
        match jsonParse sub.asString with
        | some j => j
        | none =>
          match reQueryValue sub with
          | some v => Json.jobj (.fcons "query" (.jstr v.asString) .fnil)
          | none => emptyObj
    | _ => emptyObj

/-! Event classifiers and concrete scenario inputs used by the claims -/

/-- Test for the stream-start event. -/
def isStreamStartEv : Event → Bool
  | .streamStart => true
  | _ => false

/-- Test for the terminal error event. -/
def isErrorEv : Event → Bool
  | .errorEvent _ => true
  | _ => false

/-- Test for a tool-call event. -/
def isToolCallEv : Event → Bool
  | .toolCall _ _ _ => true
  | _ => false

/-- A model response that requests the datetime tool. -/
def toolCallText : String := "Thought: t\nAction: get_datetime\nAction Input: \x7b\x7d\nPAUSE"

/-- Model oracle issuing nine tool requests and then a final answer, so the
terminal answer arrives exactly on the tenth iteration. -/
def oracleNineThenFinal : Nat → String :=
  fun i => if i < 9 then toolCallText else "Final Answer: done"

/-- Behaviour oracle whose tools all resolve immediately. -/
def behResolvesOk : String → Json → ToolBehavior := fun _ _ => .resolves "ok"

/-- Behaviour oracle whose tools all hang past the race window. -/
def behHangs : String → Json → ToolBehavior := fun _ _ => .hangs

/-- A model response that requests a web search. -/
def searchText : String :=
  "Thought: t\nAction: web_search\nAction Input: \x7b\"query\": \"x\"\x7d\nPAUSE"

/-- Model oracle issuing one web search and then a final answer. -/
def oracleSearchThenFinal : Nat → String :=
  fun i => if i = 0 then searchText else "Final Answer: done"

/-- Raw model text whose Final Answer marker is its very last substring, with
an action request before it. -/
def emptyTailText : String := "Action: get_datetime\nAction Input: \x7b\x7d\nFinal Answer:"

/-- Model oracle issuing the empty-tail text first and then a final answer. -/
def oracleEmptyTail : Nat → String :=
  fun i => if i = 0 then emptyTailText else "Final Answer: done"

/-- Raw model text with stray text between the Action Input marker and the
opening brace. -/
def strayBraceText : String := "Action: web_search\nAction Input: x \x7b\"query\": \"a\"\x7d"

/-- Raw model text containing both markers with nothing after the final-answer
marker. -/
def bothMarkersEmptyTail : String := "Action: web_search\nFinal Answer:"

/-- A session history of fifty turns whose first turn is the system prompt. -/
def fullHistory : List Msg := ⟨Role.system, "S"⟩ :: List.replicate 49 ⟨Role.human, "u"⟩

/-- An observation one character over the client cap. -/
def longObs : String := (List.replicate 2001 'a').asString

/-- Behaviour oracle whose tools all resolve with the long observation. -/
def behResolvesLong : String → Json → ToolBehavior := fun _ _ => .resolves longObs

/-! Auxiliary lemmas on the string primitives -/

theorem startsWithExact_of_isPrefix : ∀ {pat l : List Char}, pat <+: l → startsWithExact pat l = true := by
  intro pat
  induction pat with
  | nil => intro l _; rfl
  | cons p ps ih =>
    intro l hp
    obtain ⟨t, ht⟩ := hp
    subst ht
    simpa [startsWithExact] using ih ⟨t, rfl⟩

theorem containsSub_of_isPrefix {pat l : List Char} (h : pat <+: l) : containsSub pat l = true := by
  cases l with
  | nil =>
    have : pat = [] := by
      obtain ⟨t, ht⟩ := h
      exact (List.append_eq_nil.mp ht).1
    simp [containsSub, this]
  | cons c cs =>
    simp [containsSub, startsWithExact_of_isPrefix h]

theorem containsSub_append_right (pat l2 : List Char) :
    ∀ l1, containsSub pat l2 = true → containsSub pat (l1 ++ l2) = true := by
  intro l1
  induction l1 with
  | nil => intro h; simpa using h
  | cons c cs ih =>
    intro h
    simp only [List.cons_append, containsSub, Bool.or_eq_true]
    exact Or.inr (ih h)

theorem jsTrim_dropWhile (l : List Char) : jsTrim (l.dropWhile isJsWs) = jsTrim l := by
  simp [jsTrim, List.dropWhile_idempotent]

theorem jsTrim_eq_nil_of_all_ws {l : List Char} (h : ∀ c ∈ l, isJsWs c) : jsTrim l = [] := by
  have hd : l.dropWhile isJsWs = [] := List.dropWhile_eq_nil_iff.mpr h
  simp [jsTrim, hd]

theorem all_ws_of_jsTrim_nil {l : List Char} (h : jsTrim l = []) : ∀ c ∈ l, isJsWs c := by
  intro c hc
  have h1 : (l.dropWhile isJsWs).reverse.dropWhile isJsWs = [] := by
    have := congrArg List.reverse h
    simpa [jsTrim] using this
  have h3 : ∀ a ∈ l.dropWhile isJsWs, isJsWs a := by
    intro a ha
    exact List.dropWhile_eq_nil_iff.mp h1 a (List.mem_reverse.mpr ha)
  have hsplit := List.takeWhile_append_dropWhile (p := isJsWs) (l := l)
  rw [← hsplit] at hc
  rcases List.mem_append.mp hc with hl | hr
  · exact List.mem_takeWhile_imp hl
  · exact h3 c hr

/-! Lemmas on the final-answer branch of the parser -/

theorem reFinalAnswerGroup_some {l tail : List Char}
    (h : tailAfterCI "Final Answer:".data l = some tail) (hne : tail ≠ []) :
    ∃ g, reFinalAnswerGroup l = some g ∧ jsTrim g = jsTrim tail := by
  have hie : tail.isEmpty = false := by
    cases tail with
    | nil => exact absurd rfl hne
    | cons c cs => rfl
  by_cases hws : tail.dropWhile isJsWs = []
  · refine ⟨tail.drop (tail.length - 1), ?_, ?_⟩
    · simp [reFinalAnswerGroup, h, hie, hws]
    · have hall : ∀ c ∈ tail, isJsWs c := List.dropWhile_eq_nil_iff.mp hws
      have h1 : jsTrim (tail.drop (tail.length - 1)) = [] := by
        apply jsTrim_eq_nil_of_all_ws
        intro c hc
        exact hall c (List.drop_subset _ _ hc)
      have h2 : jsTrim tail = [] := jsTrim_eq_nil_of_all_ws hall
      rw [h1, h2]
  · refine ⟨tail.dropWhile isJsWs, ?_, jsTrim_dropWhile tail⟩
    have hie2 : (tail.dropWhile isJsWs).isEmpty = false := by
      cases hcase : tail.dropWhile isJsWs with
      | nil => exact absurd hcase hws
      | cons c cs => rfl
    simp [reFinalAnswerGroup, h, hie, hie2]

theorem parseReACTResponse_final {response : String} {tail : List Char}
    (h : tailAfterCI "Final Answer:".data response.data = some tail) (hne : tail ≠ []) :
    parseReACTResponse response =
      { isDone := true, finalAnswer := some (jsTrim tail).asString, action := none } := by
  obtain ⟨g, hg, hgt⟩ := reFinalAnswerGroup_some h hne
  unfold parseReACTResponse
  rw [hg]
  simp only [hgt]

theorem parseReACTResponse_unrecognized {response : String}
    (hfa : tailAfterCI "Final Answer:".data response.data = none)
    (ha : reActionName response.data = none) :
    parseReACTResponse response = { isDone := false, finalAnswer := none, action := none } := by
  unfold parseReACTResponse reFinalAnswerGroup
  rw [hfa, ha]

/-! Invariants of the ReACT loop, by induction on the remaining passes -/

theorem runLoop_invocations_le (beh : String → Json → ToolBehavior) (oracle : Nat → String) :
    ∀ fuel iter h, (runLoop beh oracle fuel iter h).invocations ≤ fuel := by
  intro fuel
  induction fuel with
  | zero => intro iter h; exact Nat.le_refl 0
  | succ fuel ih =>
    intro iter h
    simp only [runLoop]
    split
    · exact Nat.le_add_left 1 fuel
    · split
      · split
        · exact Nat.succ_le_succ (ih _ _)
        · exact Nat.succ_le_succ (ih _ _)
      · exact Nat.le_add_left 1 fuel

theorem runLoop_finalIter (beh : String → Json → ToolBehavior) (oracle : Nat → String) :
    ∀ fuel iter h, (runLoop beh oracle fuel iter h).finalIter =
      iter + (runLoop beh oracle fuel iter h).invocations := by
  intro fuel
  induction fuel with
  | zero => intro iter h; rfl
  | succ fuel ih =>
    intro iter h
    simp only [runLoop]
    split
    · rfl
    · split
      · split
        · simp only []
          rw [ih]
          omega
        · simp only []
          rw [ih]
          omega
      · rfl

theorem runLoop_invocations_pos (beh : String → Json → ToolBehavior) (oracle : Nat → String)
    (fuel iter : Nat) (h : List Msg) (hf : 0 < fuel) :
    1 ≤ (runLoop beh oracle fuel iter h).invocations := by
  cases fuel with
  | zero => exact absurd hf (Nat.lt_irrefl 0)
  | succ fuel =>
    simp only [runLoop]
    split
    · exact Nat.le_refl 1
    · split
      · split
        · exact Nat.le_add_left 1 _
        · exact Nat.le_add_left 1 _
      · exact Nat.le_refl 1

theorem runLoop_exhausted_invocations (beh : String → Json → ToolBehavior) (oracle : Nat → String) :
    ∀ fuel iter h, (runLoop beh oracle fuel iter h).exit = .exhausted →
      (runLoop beh oracle fuel iter h).invocations = fuel := by
  intro fuel
  induction fuel with
  | zero => intro iter h _; rfl
  | succ fuel ih =>
    intro iter h
    simp only [runLoop]
    split
    · intro hx; exact absurd hx (by simp)
    · split
      · split
        · intro hx
          simp only [] at hx ⊢
          rw [ih _ _ hx]
        · intro hx
          simp only [] at hx ⊢
          rw [ih _ _ hx]
      · intro hx; exact absurd hx (by simp)

theorem runLoop_exit_pos (beh : String → Json → ToolBehavior) (oracle : Nat → String)
    (fuel iter : Nat) (h : List Msg)
    (hx : (runLoop beh oracle fuel iter h).exit ≠ .exhausted) :
    1 ≤ (runLoop beh oracle fuel iter h).invocations := by
  cases fuel with
  | zero => exact absurd rfl hx
  | succ fuel => exact runLoop_invocations_pos beh oracle (fuel + 1) iter h (Nat.succ_pos fuel)

theorem runLoop_history_extends (beh : String → Json → ToolBehavior) (oracle : Nat → String) :
    ∀ fuel iter h, h <+: (runLoop beh oracle fuel iter h).history := by
  intro fuel
  induction fuel with
  | zero => intro iter h; exact ⟨[], List.append_nil h⟩
  | succ fuel ih =>
    intro iter h
    simp only [runLoop]
    split
    · exact ⟨_, rfl⟩
    · split
      · split
        · exact (show h <+: h ++ _ from ⟨_, rfl⟩).trans (ih _ _)
        · exact (show h <+: h ++ _ from ⟨_, rfl⟩).trans (ih _ _)
      · exact ⟨_, rfl⟩

theorem countP_streamChunkEvents (p : Event → Bool) (hp : ∀ s, p (Event.streamChunk s) = false)
    (text : String) : (streamChunkEvents text).countP p = 0 := by
  unfold streamChunkEvents
  rw [List.countP_map]
  apply List.countP_eq_zero.mpr
  intro a _
  simp [Function.comp, hp]

theorem runLoop_streamStart_count (beh : String → Json → ToolBehavior) (oracle : Nat → String) :
    ∀ fuel iter h, (runLoop beh oracle fuel iter h).events.countP isStreamStartEv =
      (if (runLoop beh oracle fuel iter h).exit = .exhausted then 0 else 1) := by
  intro fuel
  induction fuel with
  | zero => intro iter h; rfl
  | succ fuel ih =>
    intro iter h
    simp only [runLoop]
    split
    · simp [List.countP_cons, List.countP_append,
        countP_streamChunkEvents isStreamStartEv (fun _ => rfl), isStreamStartEv]
    · cases hA : (parseReACTResponse (oracle iter)).action with
      | some a =>
        cases hE : executeReACTAction beh a with
        | resolved obs =>
          simp [hA, hE, List.countP_cons, List.countP_append, isStreamStartEv, ih]
        | pending =>
          simp [hA, hE, List.countP_cons, List.countP_append, isStreamStartEv, ih]
      | none =>
        simp [hA, List.countP_cons, List.countP_append,
          countP_streamChunkEvents isStreamStartEv (fun _ => rfl), isStreamStartEv]

theorem runLoop_error_count (beh : String → Json → ToolBehavior) (oracle : Nat → String) :
    ∀ fuel iter h, (runLoop beh oracle fuel iter h).events.countP isErrorEv = 0 := by
  intro fuel
  induction fuel with
  | zero => intro iter h; rfl
  | succ fuel ih =>
    intro iter h
    simp only [runLoop]
    split
    · simp [List.countP_cons, List.countP_append,
        countP_streamChunkEvents isErrorEv (fun _ => rfl), isErrorEv]
    · cases hA : (parseReACTResponse (oracle iter)).action with
      | some a =>
        cases hE : executeReACTAction beh a with
        | resolved obs =>
          simp [hA, hE, List.countP_cons, List.countP_append, isErrorEv, ih]
        | pending =>
          simp [hA, hE, List.countP_cons, List.countP_append, isErrorEv, ih]
      | none =>
        simp [hA, List.countP_cons, List.countP_append,
          countP_streamChunkEvents isErrorEv (fun _ => rfl), isErrorEv]

theorem runLoop_toolCall_count (beh : String → Json → ToolBehavior) (oracle : Nat → String) :
    ∀ fuel iter h, (runLoop beh oracle fuel iter h).events.countP isToolCallEv +
        (if (runLoop beh oracle fuel iter h).exit = .exhausted then 0 else 1) =
      (runLoop beh oracle fuel iter h).invocations := by
  intro fuel
  induction fuel with
  | zero => intro iter h; rfl
  | succ fuel ih =>
    intro iter h
    simp only [runLoop]
    split
    · simp [List.countP_cons, List.countP_append,
        countP_streamChunkEvents isToolCallEv (fun _ => rfl), isToolCallEv]
    · cases hA : (parseReACTResponse (oracle iter)).action with
      | some a =>
        cases hE : executeReACTAction beh a with
        | resolved obs =>
          have ihx := ih (iter + 1)
            (h ++ [⟨Role.ai, oracle iter ++ "\n\nObservation: " ++ obs ++ "\n\n"⟩])
          simp [hA, hE, List.countP_append, List.countP_cons, isToolCallEv]
          omega
        | pending =>
          have ihx := ih (iter + 1)
            (h ++ [⟨Role.ai, oracle iter ++ "\n\nObservation: " ++
              ("Error: " ++ ("Tool " ++ a.action ++ " timed out after 30 seconds")) ++ "\n\n"⟩])
          simp [hA, hE, List.countP_append, List.countP_cons, isToolCallEv]
          omega
      | none =>
        simp [hA, List.countP_cons, List.countP_append,
          countP_streamChunkEvents isToolCallEv (fun _ => rfl), isToolCallEv]

theorem countP_if_singleton (p : Event → Bool) (c : Prop) [Decidable c] (e : Event) :
    (if c then [e] else []).countP p = if c then (if p e then 1 else 0) else 0 := by
  split <;> simp [List.countP_cons]

theorem executeResponse_counts_aux (R : LoopResult)
    (hle : R.invocations ≤ MAX_ITERATIONS)
    (hfi : R.finalIter = 0 + R.invocations)
    (hss : R.events.countP isStreamStartEv = (if R.exit = .exhausted then 0 else 1))
    (her : R.events.countP isErrorEv = 0)
    (htc : R.events.countP isToolCallEv + (if R.exit = .exhausted then 0 else 1) = R.invocations)
    (hexh : R.exit = .exhausted → R.invocations = MAX_ITERATIONS) :
    R.invocations ≤ MAX_ITERATIONS ∧
    (Event.agentStep "thinking" "Analyzing request..." :: R.events ++
        (if MAX_ITERATIONS ≤ R.finalIter then
          [Event.errorEvent "Maximum iteration limit reached. Please try rephrasing your question."]
        else [])).countP isStreamStartEv = (if R.exit = .exhausted then 0 else 1) ∧
    (Event.agentStep "thinking" "Analyzing request..." :: R.events ++
        (if MAX_ITERATIONS ≤ R.finalIter then
          [Event.errorEvent "Maximum iteration limit reached. Please try rephrasing your question."]
        else [])).countP isErrorEv = (if R.invocations = MAX_ITERATIONS then 1 else 0) ∧
    (Event.agentStep "thinking" "Analyzing request..." :: R.events ++
        (if MAX_ITERATIONS ≤ R.finalIter then
          [Event.errorEvent "Maximum iteration limit reached. Please try rephrasing your question."]
        else [])).countP isToolCallEv +
      (if R.exit = .exhausted then 0 else 1) = R.invocations ∧
    (if R.exit = .exhausted then R.invocations = MAX_ITERATIONS else True) := by
  refine ⟨hle, ?_, ?_, ?_, ?_⟩
  · simp only [List.countP_cons, List.countP_append, countP_if_singleton, isStreamStartEv,
      hss, List.countP_nil, Bool.false_eq_true, if_false, if_true, ite_self]
    omega
  · simp only [List.countP_cons, List.countP_append, countP_if_singleton, isErrorEv,
      her, List.countP_nil, hfi, Bool.false_eq_true, if_false, if_true, ite_self]
    rcases Nat.lt_or_ge R.invocations MAX_ITERATIONS with hc | hc
    · rw [if_neg (by omega), if_neg (by omega)]
    · have heq := Nat.le_antisymm hle hc
      rw [if_pos (by omega), if_pos heq]
  · simp only [List.countP_cons, List.countP_append, countP_if_singleton, isToolCallEv,
      List.countP_nil, Bool.false_eq_true, if_false, if_true, ite_self]
    omega
  · split
    · rename_i hx
      exact hexh hx
    · trivial

/-- Claim C1, corrected.  For every sequence of model responses and every tool
behaviour the loop makes at most ten model invocations and always terminates;
a run that does not exhaust the ceiling emits exactly one stream-start, a run
that exhausts it emits none; the iteration-limit error event is emitted
exactly when the iteration counter reached ten, which includes the run whose
terminal answer arrives on the tenth iteration, so that run emits both the
final answer and the error event; the tool-call events account for every
invocation except the terminal one, and an exhausted run makes exactly ten
invocations, all of them tool calls. -/
theorem react_loop_outcome_counts (beh : String → Json → ToolBehavior) (oracle : Nat → String)
    (reactPrompt : String) (history : List Msg) :
    (executeResponse beh oracle reactPrompt history).invocations ≤ MAX_ITERATIONS ∧
    (executeResponse beh oracle reactPrompt history).events.countP isStreamStartEv =
      (if (executeResponse beh oracle reactPrompt history).exit = .exhausted then 0 else 1) ∧
    (executeResponse beh oracle reactPrompt history).events.countP isErrorEv =
      (if (executeResponse beh oracle reactPrompt history).invocations = MAX_ITERATIONS
        then 1 else 0) ∧
    (executeResponse beh oracle reactPrompt history).events.countP isToolCallEv +
      (if (executeResponse beh oracle reactPrompt history).exit = .exhausted then 0 else 1) =
      (executeResponse beh oracle reactPrompt history).invocations ∧
    (if (executeResponse beh oracle reactPrompt history).exit = .exhausted then
      (executeResponse beh oracle reactPrompt history).invocations = MAX_ITERATIONS
    else True) := by
  simp only [executeResponse]
  exact executeResponse_counts_aux _
    (runLoop_invocations_le beh oracle MAX_ITERATIONS 0 _)
    (runLoop_finalIter beh oracle MAX_ITERATIONS 0 _)
    (runLoop_streamStart_count beh oracle MAX_ITERATIONS 0 _)
    (runLoop_error_count beh oracle MAX_ITERATIONS 0 _)
    (runLoop_toolCall_count beh oracle MAX_ITERATIONS 0 _)
    (runLoop_exhausted_invocations beh oracle MAX_ITERATIONS 0 _)

/-- Counterexample to claim C1 as stated: when the model returns nine tool
requests and then a final answer, the run streams the final answer and also
emits the iteration-limit error event, so both terminal outcomes occur in one
request. -/
theorem react_loop_double_outcome_cex :
    (executeResponse behResolvesOk oracleNineThenFinal "P"
        [⟨Role.human, "hi"⟩]).events.countP isStreamStartEv = 1 ∧
    (executeResponse behResolvesOk oracleNineThenFinal "P"
        [⟨Role.human, "hi"⟩]).events.countP isErrorEv = 1 ∧
    (executeResponse behResolvesOk oracleNineThenFinal "P"
        [⟨Role.human, "hi"⟩]).invocations = 10 := by
  decide

/-- Claim C2, corrected.  A raw text containing a case-insensitive Final
Answer marker and an Action marker parses as the final answer, with the text
after the first marker occurrence, trimmed, and the action ignored — provided
at least one character follows the marker.  (When the marker is the very last
substring of the text the match fails and the action is parsed instead; see
the counterexample.) -/
theorem final_answer_priority (response : String) (tail : List Char)
    (hfa : tailAfterCI "Final Answer:".data response.data = some tail)
    (hne : tail ≠ [])
    (_hact : strContainsCI response "Action:" = true) :
    parseReACTResponse response =
      { isDone := true, finalAnswer := some (jsTrim tail).asString, action := none } :=
  parseReACTResponse_final hfa hne

/-- Witness for the corrected claim C2 at a concrete two-marker response. -/
theorem final_answer_priority_witness :
    tailAfterCI "Final Answer:".data
        "Thought: done\nAction: calculator\nFinal Answer: The result is 4.".data =
      some " The result is 4.".data ∧
    " The result is 4.".data ≠ [] ∧
    strContainsCI "Thought: done\nAction: calculator\nFinal Answer: The result is 4."
      "Action:" = true ∧
    parseReACTResponse "Thought: done\nAction: calculator\nFinal Answer: The result is 4." =
      { isDone := true, finalAnswer := some "The result is 4.", action := none } :=
  ⟨by decide, by decide, by decide,
    (final_answer_priority _ " The result is 4.".data (by decide) (by decide)
      (by decide)).trans (by decide)⟩

/-- Counterexample to claim C2 as stated: a text containing both markers in
which nothing follows the Final Answer marker parses as a tool action, not as
a final answer. -/
theorem final_answer_priority_cex :
    strContainsCI bothMarkersEmptyTail "Final Answer:" = true ∧
    strContainsCI bothMarkersEmptyTail "Action:" = true ∧
    (parseReACTResponse bothMarkersEmptyTail).isDone = false ∧
    (parseReACTResponse bothMarkersEmptyTail).finalAnswer = none ∧
    (parseReACTResponse bothMarkersEmptyTail).action =
      some ⟨"", "web_search", emptyObj⟩ := by
  decide

/-- Claim C3, corrected.  When the history exceeds the cap the oldest turns
are discarded from the front regardless of role, keeping exactly the newest
fifty turns: the retained history is always a suffix of the appended history
with length the minimum of the cap and the new length.  The system turn
enjoys no protection and is evicted like any other oldest turn; see the
counterexample. -/
theorem history_cap_keeps_newest (h : List Msg) (content : String) :
    (pushUserMessage h content).length = min (h.length + 1) MAX_HISTORY_LENGTH ∧
    (pushUserMessage h content) <:+ (h ++ [⟨Role.human, content⟩]) := by
  unfold pushUserMessage capHistory
  split
  · rename_i hlen
    refine ⟨?_, List.drop_suffix _ _⟩
    rw [List.length_drop]
    rw [List.length_append] at hlen ⊢
    simp only [List.length_cons, List.length_nil] at hlen ⊢
    omega
  · rename_i hlen
    refine ⟨?_, List.suffix_refl _⟩
    rw [List.length_append] at hlen ⊢
    simp only [List.length_cons, List.length_nil] at hlen ⊢
    omega

/-- Counterexample to claim C3 as stated: pushing one more user turn onto a
fifty-turn history headed by the system turn evicts the system turn. -/
theorem history_cap_evicts_system_cex :
    fullHistory.head? = some ⟨Role.system, "S"⟩ ∧
    MAX_HISTORY_LENGTH < (fullHistory ++ [(⟨Role.human, "new"⟩ : Msg)]).length ∧
    (pushUserMessage fullHistory "new").all (fun m => m.role != Role.system) = true := by
  decide

theorem idxOfChar_append_brace : ∀ (body : List Char), (∀ c ∈ body, c ≠ '}') →
    idxOfChar '}' (body ++ ['}']) = some body.length := by
  intro body
  induction body with
  | nil => intro _; rfl
  | cons c cs ih =>
    intro hb
    have hc : ¬(c = '}') := hb c (List.mem_cons_self c cs)
    show (if c = '}' then some 0 else (idxOfChar '}' (cs ++ ['}'])).map (· + 1)) =
      some (c :: cs).length
    rw [if_neg hc, ih (fun d hd => hb d (List.mem_cons_of_mem c hd))]
    rfl

theorem jsTrim_brace (body : List Char) :
    jsTrim ('{' :: (body ++ ['}'])) = '{' :: (body ++ ['}']) := by
  unfold jsTrim
  rw [List.dropWhile_cons]
  simp only [show isJsWs '{' = false from rfl, Bool.false_eq_true, if_false]
  rw [show ('{' :: (body ++ ['}'])).reverse = '}' :: (body.reverse ++ ['{']) from by simp]
  rw [List.dropWhile_cons]
  simp only [show isJsWs '}' = false from rfl, Bool.false_eq_true, if_false]
  simp

theorem reActionInputGroup_shape : ∀ {l g : List Char}, reActionInputGroup l = some g →
    ∃ body, g = '{' :: (body ++ ['}']) ∧ ∀ c ∈ body, c ≠ '}' := by
  intro l
  induction l with
  | nil => intro g hg; exact absurd hg (by simp [reActionInputGroup])
  | cons c cs ih =>
    intro g hg
    rw [reActionInputGroup] at hg
    split at hg
    · split at hg
      · rename_i rest heq
        simp only [] at hg
        split at hg
        · exact ih hg
        · rename_i hlen
          refine ⟨rest.takeWhile (fun d => d ≠ '}'), ?_, ?_⟩
          · exact (Option.some.inj hg).symm
          · intro d hd
            simpa using List.mem_takeWhile_imp hd
      · exact ih hg
    · exact ih hg

/-- Claim C4, corrected.  For a raw text that parses to an action, the
arguments come from the regex capture group: the group exists only when the
first non-whitespace character after an Action Input marker is an opening
brace with a closing brace somewhere after it, and it runs to the first
closing brace, not to the brace-depth match.  The captured substring is
strict-JSON-parsed; on failure a single query pair is regex-extracted from
the same substring; otherwise, and also whenever no group was captured at
all, the arguments are the empty object.  (The claim instead takes the first
opening brace anywhere after the marker; see the counterexample.) -/
theorem action_input_extraction (response : String) (w : List Char)
    (hfa : reFinalAnswerGroup response.data = none)
    (ha : reActionName response.data = some w) :
    ∃ a, parseReACTResponse response =
        { isDone := false, finalAnswer := none, action := some a } ∧
      a.actionInput =
        (match reActionInputGroup response.data with
          | some g =>
            (match jsonParse g.asString with
              | some j => j
              | none =>
                (match reQueryValue g with
                  | some v => Json.jobj (.fcons "query" (.jstr v.asString) .fnil)
                  | none => emptyObj))
          | none => emptyObj) := by
  unfold parseReACTResponse
  rw [hfa, ha]
  refine ⟨_, rfl, ?_⟩
  cases hG : reActionInputGroup response.data with
  | none => rfl
  | some g =>
    obtain ⟨body, hgeq, hb⟩ := reActionInputGroup_shape hG
    subst hgeq
    have h1 : idxOfChar '}' ('{' :: (body ++ ['}'])) = some (body.length + 1) := by
      show (if '{' = '}' then some 0 else (idxOfChar '}' (body ++ ['}'])).map (· + 1)) =
        some (body.length + 1)
      rw [if_neg (by decide), idxOfChar_append_brace body hb]
      rfl
    simp only [jsTrim_brace, h1]
    rw [List.take_of_length_le (by simp)]

/-- Witness for the corrected claim C4 at the calculator scenario of the
specification. -/
theorem action_input_extraction_witness :
    reFinalAnswerGroup
        "Thought: test\nAction: calculator\nAction Input: \x7b\"expression\": \"2+2\"\x7d\nPAUSE".data =
      none ∧
    reActionName
        "Thought: test\nAction: calculator\nAction Input: \x7b\"expression\": \"2+2\"\x7d\nPAUSE".data =
      some "calculator".data ∧
    (∃ a, parseReACTResponse
        "Thought: test\nAction: calculator\nAction Input: \x7b\"expression\": \"2+2\"\x7d\nPAUSE" =
        { isDone := false, finalAnswer := none, action := some a } ∧
      a.actionInput =
        (match reActionInputGroup
            "Thought: test\nAction: calculator\nAction Input: \x7b\"expression\": \"2+2\"\x7d\nPAUSE".data with
          | some g =>
            (match jsonParse g.asString with
              | some j => j
              | none =>
                (match reQueryValue g with
                  | some v => Json.jobj (.fcons "query" (.jstr v.asString) .fnil)
                  | none => emptyObj))
          | none => emptyObj)) :=
  ⟨by decide, by decide,
    action_input_extraction _ "calculator".data (by decide) (by decide)⟩

/-- Counterexample to claim C4 as stated: with stray text between the Action
Input marker and the opening brace, the algorithm of the claim extracts the
query object, but the code captures nothing and produces the empty object. -/
theorem action_input_first_brace_cex :
    claimedArgExtraction strayBraceText = Json.jobj (.fcons "query" (.jstr "a") .fnil) ∧
    (parseReACTResponse strayBraceText).action = some ⟨"", "web_search", emptyObj⟩ ∧
    emptyObj ≠ Json.jobj (.fcons "query" (.jstr "a") .fnil) := by
  decide

theorem truncateForClient_long {obs : String} (h : 2000 < obs.data.length) :
    truncateForClient obs = (obs.data.take 2000).asString ++ "..." := by
  unfold truncateForClient
  rw [if_pos h]

theorem truncateForClient_short {obs : String} (h : obs.data.length ≤ 2000) :
    truncateForClient obs = obs := by
  unfold truncateForClient
  rw [if_neg (by omega), List.take_of_length_le h, String.append_empty]
  exact String.asString_toList obs

theorem runLoop_step_resolved (beh : String → Json → ToolBehavior) (oracle : Nat → String)
    (fuel iter : Nat) (h : List Msg) (a : ReACTAction) (obs : String)
    (hp : parseReACTResponse (oracle iter) = { isDone := false, finalAnswer := none, action := some a })
    (hE : executeReACTAction beh a = .resolved obs) :
    runLoop beh oracle (fuel + 1) iter h =
      ⟨[Event.toolCall a.action a.actionInput ("react-" ++ toString (iter + 1)),
        Event.agentStep "executing" (getToolProgressMessage a.action a.actionInput)] ++
        [Event.toolResult a.action (truncateForClient obs) ("react-" ++ toString (iter + 1)),
         Event.agentStep "thinking" "Processing results..."] ++
        (runLoop beh oracle fuel (iter + 1)
          (h ++ [⟨Role.ai, oracle iter ++ "\n\nObservation: " ++ obs ++ "\n\n"⟩])).events,
       (runLoop beh oracle fuel (iter + 1)
          (h ++ [⟨Role.ai, oracle iter ++ "\n\nObservation: " ++ obs ++ "\n\n"⟩])).history,
       (runLoop beh oracle fuel (iter + 1)
          (h ++ [⟨Role.ai, oracle iter ++ "\n\nObservation: " ++ obs ++ "\n\n"⟩])).invocations + 1,
       (runLoop beh oracle fuel (iter + 1)
          (h ++ [⟨Role.ai, oracle iter ++ "\n\nObservation: " ++ obs ++ "\n\n"⟩])).finalIter,
       (runLoop beh oracle fuel (iter + 1)
          (h ++ [⟨Role.ai, oracle iter ++ "\n\nObservation: " ++ obs ++ "\n\n"⟩])).exit⟩ := by
  simp only [runLoop, hp, hE, jsTruthy, Bool.false_and, Bool.false_eq_true, if_false]

theorem runLoop_step_pending (beh : String → Json → ToolBehavior) (oracle : Nat → String)
    (fuel iter : Nat) (h : List Msg) (a : ReACTAction)
    (hp : parseReACTResponse (oracle iter) = { isDone := false, finalAnswer := none, action := some a })
    (hE : executeReACTAction beh a = .pending) :
    runLoop beh oracle (fuel + 1) iter h =
      ⟨[Event.toolCall a.action a.actionInput ("react-" ++ toString (iter + 1)),
        Event.agentStep "executing" (getToolProgressMessage a.action a.actionInput)] ++
        [Event.toolError a.action ("Error: " ++ ("Tool " ++ a.action ++ " timed out after 30 seconds"))
          ("react-" ++ toString (iter + 1))] ++
        (runLoop beh oracle fuel (iter + 1)
          (h ++ [⟨Role.ai, oracle iter ++ "\n\nObservation: " ++
            ("Error: " ++ ("Tool " ++ a.action ++ " timed out after 30 seconds")) ++ "\n\n"⟩])).events,
       (runLoop beh oracle fuel (iter + 1)
          (h ++ [⟨Role.ai, oracle iter ++ "\n\nObservation: " ++
            ("Error: " ++ ("Tool " ++ a.action ++ " timed out after 30 seconds")) ++ "\n\n"⟩])).history,
       (runLoop beh oracle fuel (iter + 1)
          (h ++ [⟨Role.ai, oracle iter ++ "\n\nObservation: " ++
            ("Error: " ++ ("Tool " ++ a.action ++ " timed out after 30 seconds")) ++ "\n\n"⟩])).invocations + 1,
       (runLoop beh oracle fuel (iter + 1)
          (h ++ [⟨Role.ai, oracle iter ++ "\n\nObservation: " ++
            ("Error: " ++ ("Tool " ++ a.action ++ " timed out after 30 seconds")) ++ "\n\n"⟩])).finalIter,
       (runLoop beh oracle fuel (iter + 1)
          (h ++ [⟨Role.ai, oracle iter ++ "\n\nObservation: " ++
            ("Error: " ++ ("Tool " ++ a.action ++ " timed out after 30 seconds")) ++ "\n\n"⟩])).exit⟩ := by
  simp only [runLoop, hp, hE, jsTruthy, Bool.false_and, Bool.false_eq_true, if_false]

theorem executeResponse_first_resolved (beh : String → Json → ToolBehavior)
    (oracle : Nat → String) (reactPrompt : String) (history : List Msg)
    (a : ReACTAction) (obs : String)
    (hp : parseReACTResponse (oracle 0) = { isDone := false, finalAnswer := none, action := some a })
    (hE : executeReACTAction beh a = .resolved obs) :
    Event.toolResult a.action (truncateForClient obs) ("react-" ++ toString 1) ∈
      (executeResponse beh oracle reactPrompt history).events ∧
    (⟨Role.ai, oracle 0 ++ "\n\nObservation: " ++ obs ++ "\n\n"⟩ : Msg) ∈
      (executeResponse beh oracle reactPrompt history).history ∧
    2 ≤ (executeResponse beh oracle reactPrompt history).invocations := by
  simp only [executeResponse]
  rw [show MAX_ITERATIONS = 9 + 1 from rfl]
  rw [runLoop_step_resolved beh oracle 9 0 _ a obs hp hE]
  refine ⟨?_, ?_, ?_⟩
  · simp [List.mem_cons, List.mem_append]
  · exact (runLoop_history_extends beh oracle 9 1 _).subset (by simp)
  · exact Nat.succ_le_succ (runLoop_invocations_pos beh oracle 9 1 _ (Nat.succ_pos 8))

/-- Claim C5, corrected.  When the first model response parses to a tool
action whose executor never settles inside the race window, the loop emits a
tool-error event and appends to history an AI turn whose observation is the
timeout message wrapped in the generic error prefix, namely the string
consisting of "Error: " followed by "Tool <name> timed out after 30 seconds"
(the claim omits the "Error: " prefix; see the counterexample); the timeout
consumes one ordinary iteration and the loop goes on to a second model
invocation instead of aborting.  The 30 seconds themselves are the delay of
the racing timer, modelled as the pending branch of the race. -/
theorem tool_timeout_observation (beh : String → Json → ToolBehavior)
    (oracle : Nat → String) (reactPrompt : String) (history : List Msg)
    (a : ReACTAction)
    (hp : parseReACTResponse (oracle 0) = { isDone := false, finalAnswer := none, action := some a })
    (hexec : executeReACTAction beh a = .pending) :
    Event.toolError a.action ("Error: " ++ ("Tool " ++ a.action ++ " timed out after 30 seconds"))
        ("react-" ++ toString 1) ∈ (executeResponse beh oracle reactPrompt history).events ∧
    (⟨Role.ai, oracle 0 ++ "\n\nObservation: " ++
        ("Error: " ++ ("Tool " ++ a.action ++ " timed out after 30 seconds")) ++ "\n\n"⟩ : Msg) ∈
      (executeResponse beh oracle reactPrompt history).history ∧
    2 ≤ (executeResponse beh oracle reactPrompt history).invocations := by
  simp only [executeResponse]
  rw [show MAX_ITERATIONS = 9 + 1 from rfl]
  rw [runLoop_step_pending beh oracle 9 0 _ a hp hexec]
  refine ⟨?_, ?_, ?_⟩
  · simp [List.mem_cons, List.mem_append]
  · exact (runLoop_history_extends beh oracle 9 1 _).subset (by simp)
  · exact Nat.succ_le_succ (runLoop_invocations_pos beh oracle 9 1 _ (Nat.succ_pos 8))

/-- Witness for the corrected claim C5: a hanging web search produces the
prefixed timeout observation and the loop continues. -/
theorem tool_timeout_observation_witness :
    parseReACTResponse (oracleSearchThenFinal 0) =
      { isDone := false, finalAnswer := none,
        action := some ⟨"t", "web_search", Json.jobj (.fcons "query" (.jstr "x") .fnil)⟩ } ∧
    executeReACTAction behHangs ⟨"t", "web_search", Json.jobj (.fcons "query" (.jstr "x") .fnil)⟩ =
      .pending ∧
    (Event.toolError "web_search"
        ("Error: " ++ ("Tool " ++ "web_search" ++ " timed out after 30 seconds"))
        ("react-" ++ toString 1) ∈
      (executeResponse behHangs oracleSearchThenFinal "P" [⟨Role.human, "hi"⟩]).events ∧
    (⟨Role.ai, oracleSearchThenFinal 0 ++ "\n\nObservation: " ++
        ("Error: " ++ ("Tool " ++ "web_search" ++ " timed out after 30 seconds")) ++ "\n\n"⟩ : Msg) ∈
      (executeResponse behHangs oracleSearchThenFinal "P" [⟨Role.human, "hi"⟩]).history ∧
    2 ≤ (executeResponse behHangs oracleSearchThenFinal "P" [⟨Role.human, "hi"⟩]).invocations) :=
  ⟨by decide, by decide,
    tool_timeout_observation behHangs oracleSearchThenFinal "P" [⟨Role.human, "hi"⟩]
      ⟨"t", "web_search", Json.jobj (.fcons "query" (.jstr "x") .fnil)⟩
      (by decide) (by decide)⟩

/-- Counterexample to claim C5 as stated: the observation the loop appends
for a hung web search is the prefixed string, not the bare timeout message
the claim quotes. -/
theorem tool_timeout_prefix_cex :
    (⟨Role.ai, searchText ++
        "\n\nObservation: Error: Tool web_search timed out after 30 seconds\n\n"⟩ : Msg) ∈
      (executeResponse behHangs oracleSearchThenFinal "P" [⟨Role.human, "hi"⟩]).history ∧
    (⟨Role.ai, searchText ++
        "\n\nObservation: Tool web_search timed out after 30 seconds\n\n"⟩ : Msg) ∉
      (executeResponse behHangs oracleSearchThenFinal "P" [⟨Role.human, "hi"⟩]).history ∧
    ("Error: Tool web_search timed out after 30 seconds" : String) ≠
      "Tool web_search timed out after 30 seconds" := by
  decide

/-- Claim C6, confirmed.  Executing an action whose tool name is not
registered never raises: it resolves with an observation string that contains
the substring "Unknown tool", names the unknown tool, and lists every
registered tool name. -/
theorem unknown_tool_observation (beh : String → Json → ToolBehavior) (a : ReACTAction)
    (h : a.action ∉ allToolNames) :
    ∃ s, executeReACTAction beh a = .resolved s ∧
      strContains s "Unknown tool" = true ∧
      strContains s a.action = true ∧
      ∀ n ∈ allToolNames, strContains s n = true := by
  refine ⟨"Error: Unknown tool \"" ++ a.action ++ "\". Available tools: " ++
    joinComma allToolNames, ?_, ?_, ?_, ?_⟩
  · unfold executeReACTAction
    rw [if_neg h]
  · unfold strContains
    rw [String.data_append, String.data_append, String.data_append,
      List.append_assoc, List.append_assoc]
    rw [show ("Error: Unknown tool \"".data : List Char) =
      "Error: ".data ++ "Unknown tool \"".data from by decide]
    rw [List.append_assoc]
    apply containsSub_append_right
    exact containsSub_of_isPrefix
      ((show ("Unknown tool".data : List Char) <+: "Unknown tool \"".data from
        ⟨" \"".data, by decide⟩).trans ⟨_, rfl⟩)
  · unfold strContains
    rw [String.data_append, String.data_append, String.data_append,
      List.append_assoc, List.append_assoc]
    apply containsSub_append_right
    exact containsSub_of_isPrefix ⟨_, rfl⟩
  · intro n hn
    unfold strContains
    rw [String.data_append]
    apply containsSub_append_right
    fin_cases hn <;> decide

/-- Witness for claim C6 at the nonexistent tool of the specification
scenario. -/
theorem unknown_tool_observation_witness :
    ("nonexistent_tool" : String) ∉ allToolNames ∧
    (∃ s, executeReACTAction behResolvesOk ⟨"", "nonexistent_tool", emptyObj⟩ = .resolved s ∧
      strContains s "Unknown tool" = true ∧
      strContains s "nonexistent_tool" = true ∧
      ∀ n ∈ allToolNames, strContains s n = true) :=
  ⟨by decide,
    unknown_tool_observation behResolvesOk ⟨"", "nonexistent_tool", emptyObj⟩ (by decide)⟩

/-- Claim C7, confirmed.  When the first model response parses to a tool
action and the tool resolves with an observation, the client receives a
tool-result event that carries exactly the first 2000 characters plus the
ellipsis marker when the observation is longer than 2000 characters, and the
unmodified observation otherwise; the AI turn appended to history always
contains the full untruncated observation concatenated after the raw model
text. -/
theorem truncation_consistency (beh : String → Json → ToolBehavior)
    (oracle : Nat → String) (reactPrompt : String) (history : List Msg)
    (a : ReACTAction) (obs : String)
    (hp : parseReACTResponse (oracle 0) = { isDone := false, finalAnswer := none, action := some a })
    (hreg : a.action ∈ allToolNames)
    (hbeh : beh a.action a.actionInput = .resolves obs) :
    (2000 < obs.data.length →
      Event.toolResult a.action ((obs.data.take 2000).asString ++ "...") ("react-" ++ toString 1) ∈
        (executeResponse beh oracle reactPrompt history).events) ∧
    (obs.data.length ≤ 2000 →
      Event.toolResult a.action obs ("react-" ++ toString 1) ∈
        (executeResponse beh oracle reactPrompt history).events) ∧
    (⟨Role.ai, oracle 0 ++ "\n\nObservation: " ++ obs ++ "\n\n"⟩ : Msg) ∈
      (executeResponse beh oracle reactPrompt history).history := by
  have hE : executeReACTAction beh a = .resolved obs := by
    unfold executeReACTAction
    rw [if_pos hreg, hbeh]
  obtain ⟨hev, hhist, _⟩ :=
    executeResponse_first_resolved beh oracle reactPrompt history a obs hp hE
  refine ⟨?_, ?_, hhist⟩
  · intro hlen
    rwa [truncateForClient_long hlen] at hev
  · intro hlen
    rwa [truncateForClient_short hlen] at hev

/-- Witness for claim C7: a 2001-character observation is delivered capped
with the ellipsis while history keeps it whole. -/
theorem truncation_consistency_witness :
    parseReACTResponse (oracleSearchThenFinal 0) =
      { isDone := false, finalAnswer := none,
        action := some ⟨"t", "web_search", Json.jobj (.fcons "query" (.jstr "x") .fnil)⟩ } ∧
    ("web_search" : String) ∈ allToolNames ∧
    behResolvesLong "web_search" (Json.jobj (.fcons "query" (.jstr "x") .fnil)) =
      .resolves longObs ∧
    ((2000 < longObs.data.length →
      Event.toolResult "web_search" ((longObs.data.take 2000).asString ++ "...")
          ("react-" ++ toString 1) ∈
        (executeResponse behResolvesLong oracleSearchThenFinal "P"
          [⟨Role.human, "hi"⟩]).events) ∧
    (longObs.data.length ≤ 2000 →
      Event.toolResult "web_search" longObs ("react-" ++ toString 1) ∈
        (executeResponse behResolvesLong oracleSearchThenFinal "P"
          [⟨Role.human, "hi"⟩]).events) ∧
    (⟨Role.ai, oracleSearchThenFinal 0 ++ "\n\nObservation: " ++ longObs ++ "\n\n"⟩ : Msg) ∈
      (executeResponse behResolvesLong oracleSearchThenFinal "P"
        [⟨Role.human, "hi"⟩]).history) :=
  ⟨by decide, by decide, rfl,
    truncation_consistency behResolvesLong oracleSearchThenFinal "P" [⟨Role.human, "hi"⟩]
      ⟨"t", "web_search", Json.jobj (.fcons "query" (.jstr "x") .fnil)⟩ longObs
      (by decide) (by decide) rfl⟩

/-- Claim C8, corrected.  A registered tool whose executor throws has the
exception caught inside executeReACTAction and rendered as the observation
string consisting of "Error executing ", the tool name, ": ", and the
message — not the bare "Error: <message>" format the claim quotes (see the
counterexample); the promise resolves, so nothing propagates to the caller. -/
theorem tool_exception_observation (beh : String → Json → ToolBehavior) (a : ReACTAction)
    (m : String) (hreg : a.action ∈ allToolNames)
    (hbeh : beh a.action a.actionInput = .throws m) :
    executeReACTAction beh a = .resolved ("Error executing " ++ a.action ++ ": " ++ m) := by
  unfold executeReACTAction
  rw [if_pos hreg, hbeh]

/-- Witness for the corrected claim C8 at a throwing calculator. -/
theorem tool_exception_observation_witness :
    ("calculator" : String) ∈ allToolNames ∧
    (fun (_ : String) (_ : Json) => ToolBehavior.throws "boom") "calculator" emptyObj =
      ToolBehavior.throws "boom" ∧
    executeReACTAction (fun (_ : String) (_ : Json) => ToolBehavior.throws "boom")
        ⟨"", "calculator", emptyObj⟩ =
      .resolved "Error executing calculator: boom" :=
  ⟨by decide, rfl,
    (tool_exception_observation (fun (_ : String) (_ : Json) => ToolBehavior.throws "boom")
      ⟨"", "calculator", emptyObj⟩ "boom" (by decide) rfl).trans (by decide)⟩

/-- Counterexample to claim C8 as stated: the observation for a throwing
calculator is the executing-format string, which differs from the format the
claim quotes. -/
theorem tool_exception_format_cex :
    executeReACTAction (fun (_ : String) (_ : Json) => ToolBehavior.throws "boom")
        ⟨"", "calculator", emptyObj⟩ =
      .resolved "Error executing calculator: boom" ∧
    ("Error executing calculator: boom" : String) ≠ "Error: boom" := by
  decide

theorem runLoop_step_unrecognized (beh : String → Json → ToolBehavior) (oracle : Nat → String)
    (fuel iter : Nat) (h : List Msg)
    (hp : parseReACTResponse (oracle iter) = { isDone := false, finalAnswer := none, action := none }) :
    runLoop beh oracle (fuel + 1) iter h =
      ⟨Event.streamStart :: streamChunkEvents (oracle iter) ++ [Event.streamEnd],
       h ++ [⟨Role.ai, oracle iter⟩], 1, iter + 1, .unrecognized⟩ := by
  simp [runLoop, hp, jsTruthy]

theorem runLoop_step_empty_final (beh : String → Json → ToolBehavior) (oracle : Nat → String)
    (fuel iter : Nat) (h : List Msg)
    (hp : parseReACTResponse (oracle iter) = { isDone := true, finalAnswer := some "", action := none }) :
    runLoop beh oracle (fuel + 1) iter h =
      ⟨Event.streamStart :: streamChunkEvents (oracle iter) ++ [Event.streamEnd],
       h ++ [⟨Role.ai, oracle iter⟩], 1, iter + 1, .unrecognized⟩ := by
  simp [runLoop, hp, jsTruthy]

/-- Claim C9, confirmed.  When the first model response contains no
case-insensitive Final Answer marker and no Action marker followed by a word
token, the loop treats it as an implicit final answer: the full trace is the
initial thinking step, a stream of the raw text in ten-word chunks, and the
stream end — no error event and no tool event — the raw text is appended to
history as an AI turn, the loop terminates after this single invocation, and
the exit is the unrecognized graceful degradation, not a failure. -/
theorem unrecognized_graceful_degradation (beh : String → Json → ToolBehavior)
    (oracle : Nat → String) (reactPrompt : String) (history : List Msg)
    (hfa : tailAfterCI "Final Answer:".data (oracle 0).data = none)
    (hact : reActionName (oracle 0).data = none) :
    executeResponse beh oracle reactPrompt history =
      { events := [Event.agentStep "thinking" "Analyzing request...", Event.streamStart] ++
          streamChunkEvents (oracle 0) ++ [Event.streamEnd],
        history := (if history.length = 1 then (⟨Role.system, reactPrompt⟩ : Msg) :: history
          else history) ++ [⟨Role.ai, oracle 0⟩],
        invocations := 1, finalIter := 1, exit := .unrecognized } := by
  have hp := parseReACTResponse_unrecognized hfa hact
  simp only [executeResponse]
  rw [show MAX_ITERATIONS = 9 + 1 from rfl]
  rw [runLoop_step_unrecognized beh oracle 9 0 _ hp]
  simp

/-- Witness for claim C9 at a plain-prose model response. -/
theorem unrecognized_graceful_degradation_witness :
    tailAfterCI "Final Answer:".data "hello world".data = none ∧
    reActionName "hello world".data = none ∧
    executeResponse behResolvesOk (fun _ => "hello world") "P" [⟨Role.human, "hi"⟩] =
      { events := [Event.agentStep "thinking" "Analyzing request...", Event.streamStart,
          Event.streamChunk "hello world ", Event.streamEnd],
        history := [⟨Role.system, "P"⟩, ⟨Role.human, "hi"⟩, ⟨Role.ai, "hello world"⟩],
        invocations := 1, finalIter := 1, exit := .unrecognized } :=
  ⟨by decide, by decide,
    (unrecognized_graceful_degradation behResolvesOk (fun _ => "hello world") "P"
      [⟨Role.human, "hi"⟩] (by decide) (by decide)).trans (by decide)⟩

/-- Claim C10, corrected.  When the first model response has a Final Answer
marker followed by at least one character that is all whitespace, the parser
reports a final answer whose trimmed text is empty, the loop controller skips
the final-answer branch because the empty string is falsy, and it falls
through to the unrecognized path: the entire raw text is streamed, the raw
text is appended to history as an AI turn, and the run terminates without an
error after one invocation.  (When nothing at all follows the marker the
regex does not match and the controller may take the tool-action path
instead; see the counterexample.) -/
theorem empty_final_answer_fallthrough (beh : String → Json → ToolBehavior)
    (oracle : Nat → String) (reactPrompt : String) (history : List Msg) (tail : List Char)
    (hfa : tailAfterCI "Final Answer:".data (oracle 0).data = some tail)
    (hne : tail ≠ [])
    (hws : jsTrim tail = []) :
    executeResponse beh oracle reactPrompt history =
      { events := [Event.agentStep "thinking" "Analyzing request...", Event.streamStart] ++
          streamChunkEvents (oracle 0) ++ [Event.streamEnd],
        history := (if history.length = 1 then (⟨Role.system, reactPrompt⟩ : Msg) :: history
          else history) ++ [⟨Role.ai, oracle 0⟩],
        invocations := 1, finalIter := 1, exit := .unrecognized } := by
  have hp : parseReACTResponse (oracle 0) =
      { isDone := true, finalAnswer := some "", action := none } := by
    have h2 := parseReACTResponse_final hfa hne
    rw [hws] at h2
    exact h2
  simp only [executeResponse]
  rw [show MAX_ITERATIONS = 9 + 1 from rfl]
  rw [runLoop_step_empty_final beh oracle 9 0 _ hp]
  simp

/-- Witness for the corrected claim C10 at a response whose final-answer tail
is a single space. -/
theorem empty_final_answer_fallthrough_witness :
    tailAfterCI "Final Answer:".data "Final Answer: ".data = some [' '] ∧
    ([' '] : List Char) ≠ [] ∧
    jsTrim [' '] = [] ∧
    executeResponse behResolvesOk (fun _ => "Final Answer: ") "P" [⟨Role.human, "hi"⟩] =
      { events := [Event.agentStep "thinking" "Analyzing request...", Event.streamStart,
          Event.streamChunk "Final Answer:  ", Event.streamEnd],
        history := [⟨Role.system, "P"⟩, ⟨Role.human, "hi"⟩, ⟨Role.ai, "Final Answer: "⟩],
        invocations := 1, finalIter := 1, exit := .unrecognized } :=
  ⟨by decide, by decide, by decide,
    (empty_final_answer_fallthrough behResolvesOk (fun _ => "Final Answer: ") "P"
      [⟨Role.human, "hi"⟩] [' '] (by decide) (by decide) (by decide)).trans (by decide)⟩

/-- Counterexample to claim C10 as stated: when the whitespace after the
marker is empty — the marker ends the text — and the text also carries a tool
request, the controller takes the tool path: it emits a tool call and never
streams the raw text, contrary to the claimed fallthrough. -/
theorem empty_final_answer_action_cex :
    tailAfterCI "Final Answer:".data emptyTailText.data = some [] ∧
    jsTrim ([] : List Char) = [] ∧
    Event.toolCall "get_datetime" emptyObj ("react-" ++ toString 1) ∈
      (executeResponse behResolvesOk oracleEmptyTail "P" [⟨Role.human, "hi"⟩]).events ∧
    Event.streamChunk (emptyTailText ++ " ") ∉
      (executeResponse behResolvesOk oracleEmptyTail "P" [⟨Role.human, "hi"⟩]).events := by
  decide

end ReACTSpec
